import Mathlib

/-!
Verification development for the fyaml crate (safe Rust bindings for libfyaml).

The definitions below are a shallow embedding of the crate's own code:
* `src/scalar_parse.rs` — plain-scalar type inference (null / bool / i64 / u64 /
  f64 / Number), embedded as executable functions on `String` / `List Char`;
* `src/node_ref.rs`, `src/value_ref.rs` — node styles and the typed accessors
  of `ValueRef`, embedded over a functional YAML tree model;
* `src/editor.rs` — `RawNodeHandle`, `split_path`, `set_yaml_at`, `delete_at`
  and the handle-insertion protocol;
* `src/document.rs`, `src/diag.rs` — the parse-failure error path and the
  diagnostic-capture conversion of native errors.

Machine integers are modelled as `Nat` / `Int` with explicit range checks at
exactly the points where the Rust code range-checks (`i64::try_from`,
`from_str_radix` overflow, `i32` parsing).  Rust's `f64` is modelled by
`RustFloat`: the special values are exact and finite values are carried as the
exact rational value of the decimal literal (IEEE rounding is not modelled;
every theorem below inspects only classification or exactly representable
values such as `42`).
-/

set_option maxRecDepth 10000

namespace Fyaml

/-- ASCII lower-casing of one character, as Rust's `eq_ignore_ascii_case`
performs it byte by byte. -/
def asciiLower (c : Char) : Char :=
  if 'A' ≤ c ∧ c ≤ 'Z' then Char.ofNat (c.toNat + 32) else c

/-- Embeds `a.eq_ignore_ascii_case(b)` on character lists. -/
def eqIgnoreAsciiCaseL (a b : List Char) : Bool :=
  a.map asciiLower == b.map asciiLower

/-- Embeds `a.eq_ignore_ascii_case(b)` on strings. -/
def eqIgnoreAsciiCase (a b : String) : Bool :=
  eqIgnoreAsciiCaseL a.toList b.toList

/-- Whitespace as trimmed by Rust's `str::trim` (ASCII subset; the Unicode
whitespace code points beyond ASCII never occur in the inputs considered
here). -/
def isRustWs (c : Char) : Bool :=
  c = ' ' || c = '\t' || c = '\n' || c = '\r' || c.toNat = 11 || c.toNat = 12

/-- Embeds `str::trim` on a character list. -/
def trimL (cs : List Char) : List Char :=
  ((cs.dropWhile isRustWs).reverse.dropWhile isRustWs).reverse

/-- Value of one digit character under `char::to_digit(radix)`
(`0-9`, then `a-z` / `A-Z`), as used by Rust's `from_str_radix`. -/
def digitVal (radix : Nat) (c : Char) : Option Nat :=
  let v : Option Nat :=
    if '0' ≤ c ∧ c ≤ '9' then some (c.toNat - 48)
    else if 'a' ≤ c ∧ c ≤ 'z' then some (c.toNat - 87)
    else if 'A' ≤ c ∧ c ≤ 'Z' then some (c.toNat - 55)
    else none
  match v with
  | some d => if d < radix then some d else none
  | none => none

/-- Accumulating digit loop of `from_str_radix` (mathematical value; the
per-type overflow check is applied by the callers). -/
def digitsLoop (radix : Nat) (acc : Nat) : List Char → Option Nat
  | [] => some acc
  | c :: cs =>
    match digitVal radix c with
    | some d => digitsLoop radix (radix * acc + d) cs
    | none => none

/-- Digit-string value; `none` on an empty digit string or a bad digit,
mirroring `from_str_radix`'s `InvalidDigit` / `Empty` errors. -/
def digitsVal (radix : Nat) (cs : List Char) : Option Nat :=
  match cs with
  | [] => none
  | _ => digitsLoop radix 0 cs

/-- Rust's `iN::from_str_radix` for an `N = bits` signed integer: optional
sign, digits, overflow to `None` (the Rust call returns `Err`, which the
callers in `scalar_parse.rs` turn into `None` via `.ok()?`). -/
def signedRadix (radix : Nat) (bits : Nat) (cs : List Char) : Option Int :=
  let sg : Bool × List Char :=
    match cs with
    | '+' :: rest => (false, rest)
    | '-' :: rest => (true, rest)
    | _ => (false, cs)
  match digitsVal radix sg.2 with
  | none => none
  | some n =>
    let v : Int := if sg.1 then -(n : Int) else (n : Int)
    if -(2 ^ (bits - 1) : Int) ≤ v ∧ v < (2 ^ (bits - 1) : Int) then some v else none

/-- Rust's `uN::from_str_radix` for an `N = bits` unsigned integer: optional
`+` (a `-` is rejected because `-` is not a digit), digits, overflow to
`None`. -/
def unsignedRadix (radix : Nat) (bits : Nat) (cs : List Char) : Option Nat :=
  let ds : List Char :=
    match cs with
    | '+' :: rest => rest
    | _ => cs
  match digitsVal radix ds with
  | none => none
  | some n => if n < 2 ^ bits then some n else none

/-- The radix-dispatching magnitude parse of `parse_i64`
(`src/scalar_parse.rs:51-59`): strip `0x`/`0X`/`0o`/`0O`/`0b`/`0B`, parse the
remainder as `i128` in that radix, else parse the whole as decimal `i128`. -/
def parseMagI128 (cs : List Char) : Option Int :=
  match cs with
  | '0' :: 'x' :: rest => signedRadix 16 128 rest
  | '0' :: 'X' :: rest => signedRadix 16 128 rest
  | '0' :: 'o' :: rest => signedRadix 8 128 rest
  | '0' :: 'O' :: rest => signedRadix 8 128 rest
  | '0' :: 'b' :: rest => signedRadix 2 128 rest
  | '0' :: 'B' :: rest => signedRadix 2 128 rest
  | _ => signedRadix 10 128 cs

/-- Embeds `i64::try_from(value).ok()` (`src/scalar_parse.rs:63`). -/
def i64TryFrom (v : Int) : Option Int :=
  if -(2 ^ 63 : Int) ≤ v ∧ v < (2 ^ 63 : Int) then some v else none

/-- Body of `parse_i64` after trimming (`src/scalar_parse.rs:34-64`). -/
def parseI64Core (t : List Char) : Option Int :=
  if t = [] then none
  else
    let sg : Bool × List Char :=
      match t with
      | '-' :: rest => (true, rest)
      | '+' :: rest => (false, rest)
      | _ => (false, t)
    match parseMagI128 sg.2 with
    | none => none
    | some m => i64TryFrom (if sg.1 then -m else m)

/-- Embeds `parse_i64` (`src/scalar_parse.rs:34-64`). -/
def parse_i64 (s : String) : Option Int :=
  parseI64Core (trimL s.toList)

/-- Radix dispatch of `parse_u64` (`src/scalar_parse.rs:90-98`). -/
def parseU64Body (cs : List Char) : Option Nat :=
  match cs with
  | '0' :: 'x' :: rest => unsignedRadix 16 64 rest
  | '0' :: 'X' :: rest => unsignedRadix 16 64 rest
  | '0' :: 'o' :: rest => unsignedRadix 8 64 rest
  | '0' :: 'O' :: rest => unsignedRadix 8 64 rest
  | '0' :: 'b' :: rest => unsignedRadix 2 64 rest
  | '0' :: 'B' :: rest => unsignedRadix 2 64 rest
  | _ => unsignedRadix 10 64 cs

/-- Body of `parse_u64` after trimming (`src/scalar_parse.rs:70-99`): a `-`
with a nonempty remainder returns `None`; a bare `-` leaves the empty string,
which then fails to parse. -/
def parseU64Core (t : List Char) : Option Nat :=
  if t = [] then none
  else
    match t with
    | '-' :: rest => if rest = [] then parseU64Body rest else none
    | '+' :: rest => parseU64Body rest
    | _ => parseU64Body t

/-- Embeds `parse_u64` (`src/scalar_parse.rs:70-99`). -/
def parse_u64 (s : String) : Option Nat :=
  parseU64Core (trimL s.toList)

/-- Embeds `parse_bool` (`src/scalar_parse.rs:22-28`): the exact YAML 1.1 spelling
lists, nothing else. -/
def parse_bool (s : String) : Option Bool :=
  if s = "true" ∨ s = "True" ∨ s = "TRUE" ∨ s = "yes" ∨ s = "Yes" ∨ s = "YES"
      ∨ s = "on" ∨ s = "On" ∨ s = "ON" then some true
  else if s = "false" ∨ s = "False" ∨ s = "FALSE" ∨ s = "no" ∨ s = "No"
      ∨ s = "NO" ∨ s = "off" ∨ s = "Off" ∨ s = "OFF" then some false
  else none

/-- Embeds `is_null` (`src/scalar_parse.rs:12-14`). -/
def is_null (s : String) : Bool :=
  s = "" || s = "~" || eqIgnoreAsciiCase s "null"

/-- Model of a Rust `f64` as produced by the parsing paths of
`scalar_parse.rs`: the special values exactly, finite values as the exact
rational value of the accepted decimal literal. -/
inductive RustFloat where
  | inf
  | neginf
  | nan
  | finite (q : ℚ)
deriving DecidableEq, Repr

/-- Digits of a decimal digit string as a `Nat` (empty = 0). -/
def digitsNat (ds : List Char) : Nat :=
  ds.foldl (fun acc c => 10 * acc + (c.toNat - 48)) 0

/-- Exponent part of Rust's `f64` grammar, after the `e`/`E`: optional sign
then at least one digit, consuming the whole remainder. -/
def parseExpPart (cs : List Char) : Option Int :=
  let sg : Bool × List Char :=
    match cs with
    | '+' :: rest => (false, rest)
    | '-' :: rest => (true, rest)
    | _ => (false, cs)
  let ds := sg.2.takeWhile Char.isDigit
  let rest := sg.2.dropWhile Char.isDigit
  if ds = [] ∨ rest ≠ [] then none
  else some (if sg.1 then -(digitsNat ds : Int) else (digitsNat ds : Int))

/-- Exact rational value of the decimal literal `ds1 . ds2 e exp` with sign
`neg`, built with the core `mkRat` so that it evaluates by kernel
reduction. -/
def decValue (neg : Bool) (ds1 ds2 : List Char) (e : Int) : ℚ :=
  let base : Int := ((digitsNat ds1 * 10 ^ ds2.length + digitsNat ds2 : Nat) : Int)
  let num : Int := if neg then -base else base
  if 0 ≤ e then mkRat (num * ((10 ^ e.toNat : Nat) : Int)) (10 ^ ds2.length)
  else mkRat num (10 ^ ds2.length * 10 ^ (-e).toNat)

/-- Decimal-number part of Rust's `f64::from_str` grammar (after the optional
sign): integer digits, optional `.` plus fraction digits (at least one digit
overall), optional exponent. -/
def parseDecFloat (neg : Bool) (cs : List Char) : Option RustFloat :=
  let ds1 := cs.takeWhile Char.isDigit
  let r1 := cs.dropWhile Char.isDigit
  let fr : List Char × List Char :=
    match r1 with
    | '.' :: r2 => (r2.takeWhile Char.isDigit, r2.dropWhile Char.isDigit)
    | _ => ([], r1)
  if ds1 = [] ∧ fr.1 = [] then none
  else
    let expv : Option Int :=
      match fr.2 with
      | [] => some 0
      | 'e' :: r3 => parseExpPart r3
      | 'E' :: r3 => parseExpPart r3
      | _ => none
    match expv with
    | none => none
    | some e => some (.finite (decValue neg ds1 fr.1 e))

/-- Rust's `str::parse::<f64>()` grammar: optional sign, then `inf`,
`infinity` or `nan` (ASCII case-insensitive) or a decimal number. -/
def rustParseF64L (cs : List Char) : Option RustFloat :=
  let sg : Bool × List Char :=
    match cs with
    | '+' :: rest => (false, rest)
    | '-' :: rest => (true, rest)
    | _ => (false, cs)
  let low := sg.2.map asciiLower
  if low = "inf".toList ∨ low = "infinity".toList then
    some (if sg.1 then .neginf else .inf)
  else if low = "nan".toList then some .nan
  else parseDecFloat sg.1 sg.2

/-- Embeds `parse_f64` (`src/scalar_parse.rs:104-118`): the YAML special spellings
`.inf` / `+.inf` / `-.inf` / `.nan` (case-insensitive) first, then standard
Rust float parsing; note that unlike `parse_i64` it does not trim. -/
def parse_f64 (s : String) : Option RustFloat :=
  if eqIgnoreAsciiCase s ".inf" || eqIgnoreAsciiCase s "+.inf" then some .inf
  else if eqIgnoreAsciiCase s "-.inf" then some .neginf
  else if eqIgnoreAsciiCase s ".nan" then some .nan
  else rustParseF64L s.toList

/-- Embeds `value::Number` (`src/value/mod.rs`): signed, unsigned or float. -/
inductive Number where
  | int (i : Int)
  | uint (n : Nat)
  | float (f : RustFloat)
deriving DecidableEq, Repr

/-- Embeds `parse_number` (`src/scalar_parse.rs:133-175`): try `parse_i64`
(preferring `uint` for non-negative values), then `parse_u64`, then the float
specials, then a float only if the text contains `.` or an `e`/`E`.  The
source calls `parse_i64` / `parse_u64` on the already-trimmed slice; their
inner trim is then the identity, so the cores are applied to `t` directly. -/
def parse_number (s : String) : Option Number :=
  let t := trimL s.toList
  if t = [] then none
  else
    match parseI64Core t with
    | some n => if 0 ≤ n then some (.uint n.toNat) else some (.int n)
    | none =>
      match parseU64Core t with
      | some n => some (.uint n)
      | none =>
        if eqIgnoreAsciiCaseL t ".inf".toList || eqIgnoreAsciiCaseL t "+.inf".toList then
          some (.float .inf)
        else if eqIgnoreAsciiCaseL t "-.inf".toList then some (.float .neginf)
        else if eqIgnoreAsciiCaseL t ".nan".toList then some (.float .nan)
        else
          if t.contains '.' || t.contains 'e' || t.contains 'E' then
            match rustParseF64L t with
            | some f => some (.float f)
            | none => none
          else none

/-- Embeds `needs_quoting` (`src/scalar_parse.rs:126-128`). -/
def needs_quoting (s : String) : Bool :=
  is_null s || (parse_bool s).isSome || (parse_number s).isSome

example : parse_i64 "42" = some 42 := by decide
example : parse_i64 "-10" = some (-10) := by decide
example : parse_i64 "0xFF" = some 255 := by decide
example : parse_i64 "-0o77" = some (-63) := by decide
example : parse_i64 "0b1010" = some 10 := by decide
example : parse_i64 "-9223372036854775808" = some (-(2 ^ 63)) := by decide
example : parse_i64 "9223372036854775808" = none := by decide
example : parse_u64 "-10" = none := by decide
example : parse_u64 "18446744073709551615" = some (2 ^ 64 - 1) := by decide
example : parse_bool "yes" = some true := by decide
example : parse_bool "tRue" = none := by decide
example : is_null "NULL" = true := by decide
example : parse_f64 ".inf" = some .inf := by decide
example : parse_f64 "2.5" = some (.finite (mkRat 5 2)) := by decide
example : parse_f64 "1e3" = some (.finite 1000) := by decide
example : parse_f64 "42" = some (.finite 42) := by decide
example : parse_number "42" = some (.uint 42) := by decide
example : parse_number "-10" = some (.int (-10)) := by decide
example : parse_number "2.5" = some (.float (.finite (mkRat 5 2))) := by decide
example : parse_number "inf" = none := by decide
example : parse_f64 "inf" = some .inf := by decide
example : parse_f64 "infinity" = some .inf := by decide
example : parse_f64 "-inf" = some .neginf := by decide
example : parse_f64 "NaN" = some .nan := by decide
example : needs_quoting "inf" = false := by decide
example : needs_quoting "yes" = true := by decide

/-- Modelled from the spec: the `NodeStyle` enum.  `node.rs`'s definition of
this enum is not among the provided sources (only its users are); the spec's
data model lists the styles {Plain, SingleQuoted, DoubleQuoted, Literal,
Folded, Flow, Block, Any, Alias}, and `editor.rs`'s `set_style` match
enumerates exactly these nine variants. -/
inductive NodeStyle where
  | any
  | flow
  | block
  | plain
  | singleQuoted
  | doubleQuoted
  | literal
  | folded
  | alias
deriving DecidableEq, Repr

/-- Embeds `NodeType` (`src/node.rs:17-24`). -/
inductive NodeType where
  | scalar
  | sequence
  | mapping
deriving DecidableEq, Repr

/-- Functional model of a libfyaml tree node (`fy_node`): a scalar with its
content bytes and style, a sequence of children, or a mapping of key/value
pairs.  Every node carries its style (`fy_node_get_style`).  Node identity is
positional: libfyaml links each node into at most one parent, so a node
occurs at most once in a sequence and removal/insertion by node pointer
corresponds to removal/insertion by position. -/
inductive YNode where
  | scalar (content : String) (style : NodeStyle)
  | sequence (items : List YNode) (style : NodeStyle)
  | mapping (pairs : List (YNode × YNode)) (style : NodeStyle)

/-- Embeds `fy_node_get_type` / `NodeRef::kind` (`src/node_ref.rs:97-99`). -/
def kindOf : YNode → NodeType
  | .scalar _ _ => .scalar
  | .sequence _ _ => .sequence
  | .mapping _ _ => .mapping

/-- Embeds `fy_node_get_style` / `NodeRef::style` (`src/node_ref.rs:126-128`). -/
def styleOf : YNode → NodeStyle
  | .scalar _ st => st
  | .sequence _ st => st
  | .mapping _ st => st

/-- Embeds `NodeRef::is_scalar` (`src/node_ref.rs:103-105`). -/
def is_scalar (n : YNode) : Bool := kindOf n = .scalar

/-- Embeds `NodeRef::is_non_plain` (`src/node_ref.rs:143-149`): single-quoted,
double-quoted, literal or folded style. -/
def is_non_plain (n : YNode) : Bool :=
  styleOf n = .singleQuoted || styleOf n = .doubleQuoted
    || styleOf n = .literal || styleOf n = .folded

/-- Embeds `NodeRef::scalar_str().ok()` (`src/node_ref.rs:206-209`): the scalar
content, `none` for a non-scalar (in this model content is always valid
UTF-8, so the encoding-error arm of the source cannot fire). -/
def scalarStrOk : YNode → Option String
  | .scalar c _ => some c
  | _ => none

/-- Embeds `ValueRef::is_null` (`src/value_ref.rs:128-140`). -/
def vrIsNull (n : YNode) : Bool :=
  if !is_scalar n then false
  else if is_non_plain n then false
  else
    match scalarStrOk n with
    | some s => is_null s
    | none => false

/-- Embeds `ValueRef::as_bool` (`src/value_ref.rs:195-205`). -/
def vrAsBool (n : YNode) : Option Bool :=
  if !is_scalar n then none
  else if is_non_plain n then none
  else (scalarStrOk n).bind parse_bool

/-- Embeds `ValueRef::as_i64` (`src/value_ref.rs:228-238`). -/
def vrAsI64 (n : YNode) : Option Int :=
  if !is_scalar n then none
  else if is_non_plain n then none
  else (scalarStrOk n).bind parse_i64

/-- Embeds `ValueRef::as_u64` (`src/value_ref.rs:250-259`). -/
def vrAsU64 (n : YNode) : Option Nat :=
  if !is_scalar n then none
  else if is_non_plain n then none
  else (scalarStrOk n).bind parse_u64

/-- Embeds `ValueRef::as_f64` (`src/value_ref.rs:284-293`). -/
def vrAsF64 (n : YNode) : Option RustFloat :=
  if !is_scalar n then none
  else if is_non_plain n then none
  else (scalarStrOk n).bind parse_f64

example : vrAsBool (.scalar "true" .plain) = some true := by decide
example : vrAsBool (.scalar "true" .singleQuoted) = none := by decide
example : vrAsI64 (.scalar "42" .doubleQuoted) = none := by decide
example : vrAsF64 (.scalar "inf" .plain) = some .inf := by decide
example : vrIsNull (.scalar "null" .plain) = true := by decide
example : vrIsNull (.scalar "null" .singleQuoted) = false := by decide

/-- Embeds `ParseError` (`src/error.rs:34-41`): message plus optional 1-based line
and column. -/
structure ParseErrorS where
  message : String
  line : Option Nat
  column : Option Nat
deriving DecidableEq, Repr

/-- The arms of `Error` (`src/error.rs:100-133`) used by the embedded
operations. -/
inductive ErrorS where
  | ffi (msg : String)
  | parse (msg : String)
  | parseError (pe : ParseErrorS)
  | typeMismatch (expected got : String)
deriving DecidableEq, Repr

/-- Embeds `RawNodeHandle` (`src/editor.rs:72-76`): the freshly built node together
with the `inserted` flag. -/
structure RawNodeHandle where
  node : YNode
  inserted : Bool

/-- Embeds `RawNodeHandle::mark_inserted` (`src/editor.rs:100-102`). -/
def markInserted (h : RawNodeHandle) : RawNodeHandle :=
  { h with inserted := true }

/-- Number of `fy_node_free` calls performed by `RawNodeHandle`'s `Drop`
(`src/editor.rs:105-116`): one if the handle was never inserted, zero
otherwise. -/
def dropFreeCount (h : RawNodeHandle) : Nat :=
  if h.inserted then 0 else 1

/-- Embeds `Editor::set_root` (`src/editor.rs:572-580`), with the return code of the
engine call `fy_document_set_root` as a parameter (`0` = success): returns
the operation result together with the final handle state. -/
def setRootE (ret : Int) (h : RawNodeHandle) :
    Except ErrorS Unit × RawNodeHandle :=
  if ret ≠ 0 then (.error (.ffi "fy_document_set_root failed"), h)
  else (.ok (), markInserted h)

/-- Embeds `Editor::seq_append` (`src/editor.rs:604-611`), engine return code of
`fy_node_sequence_append` as a parameter; only the item handle carries an
ownership state here (the `seq` handle is borrowed, not consumed). -/
def seqAppendE (ret : Int) (item : RawNodeHandle) :
    Except ErrorS Unit × RawNodeHandle :=
  if ret ≠ 0 then (.error (.ffi "fy_node_sequence_append failed"), item)
  else (.ok (), markInserted item)

/-- Embeds `Editor::map_insert` (`src/editor.rs:623-636`), engine return code of
`fy_node_mapping_append` as a parameter; on success both the key and the
value handle are marked inserted. -/
def mapInsertE (ret : Int) (key value : RawNodeHandle) :
    Except ErrorS Unit × RawNodeHandle × RawNodeHandle :=
  if ret ≠ 0 then (.error (.ffi "fy_node_mapping_append failed"), key, value)
  else (.ok (), markInserted key, markInserted value)

/-- Embeds `Editor::seq_append_at` (`src/editor.rs:692-708`): type check on the
target node, then the engine append with its return code as a parameter. -/
def seqAppendAtE (targetKind : NodeType) (ret : Int) (item : RawNodeHandle) :
    Except ErrorS Unit × RawNodeHandle :=
  if targetKind ≠ .sequence then
    (.error (.typeMismatch "sequence" "non-sequence"), item)
  else if ret ≠ 0 then (.error (.ffi "fy_node_sequence_append failed"), item)
  else (.ok (), markInserted item)

/-- Embeds `split_path` (`src/editor.rs:129-135`): split at the last `/`. -/
def split_path (s : String) : String × String :=
  let l := s.toList
  match (l.reverse).indexOf? '/' with
  | none => ("", s)
  | some k =>
    let i := l.length - 1 - k
    if i = 0 then ("", ⟨l.drop 1⟩)
    else (⟨l.take i⟩, ⟨l.drop (i + 1)⟩)

/-- Embeds `str::parse::<i32>()`: decimal `from_str_radix` with the `i32` range. -/
def rustParseI32 (s : String) : Option Int :=
  signedRadix 10 32 s.toList

/-- Embeds `fy_node_sequence_get_by_index`: negative indices count from the end,
out of range gives NULL (`none`); cf. `NodeRef::seq_get`
(`src/node_ref.rs:303-313`). -/
def seqGetByIndex (items : List YNode) (i : Int) : Option YNode :=
  let j : Int := if i < 0 then (items.length : Int) + i else i
  if 0 ≤ j ∧ j < (items.length : Int) then items[j.toNat]? else none

/-- Embeds `fy_node_mapping_lookup_pair_by_string`: index of the first pair whose
key is a scalar with exactly the given content. -/
def lookupPairIdx (pairs : List (YNode × YNode)) (key : String) : Option Nat :=
  pairs.findIdx? (fun p =>
    match p.1 with
    | .scalar c _ => c = key
    | _ => false)

/-- Splitting a character list at `/`, accumulator-style. -/
def splitSlashAux (cur : List Char) : List Char → List (List Char)
  | [] => [cur.reverse]
  | c :: cs =>
    if c = '/' then cur.reverse :: splitSlashAux [] cs
    else splitSlashAux (c :: cur) cs

/-- Path components of a `/`-separated path, empty components skipped; the
walk order of `fy_node_by_path` for plain key / index segments. -/
def pathSegs (p : String) : List String :=
  ((splitSlashAux [] p.toList).map (fun l => (⟨l⟩ : String))).filter
    (fun x => x ≠ "")

/-- One `fy_node_by_path` step with write-back: navigate from `n` along
`segs` (mapping segments by scalar-key lookup, sequence segments by signed
index with negative indices from the end), apply `f` to the node found, and
rebuild the tree around the result.  `none` means the path did not resolve;
the payload `List YNode` accumulates the nodes the edit explicitly freed. -/
def modifyAt (f : YNode → Except ErrorS (YNode × List YNode)) :
    YNode → List String → Option (Except ErrorS (YNode × List YNode))
  | n, [] => some (f n)
  | n, seg :: rest =>
    match n with
    | .scalar _ _ => none
    | .sequence items st =>
      match rustParseI32 seg with
      | none => none
      | some i =>
        let j : Int := if i < 0 then (items.length : Int) + i else i
        if h : 0 ≤ j ∧ j < (items.length : Int) then
          match modifyAt f (items.get ⟨j.toNat, by omega⟩) rest with
          | none => none
          | some (.error e) => some (.error e)
          | some (.ok (c, freed)) =>
            some (.ok (.sequence (items.set j.toNat c) st, freed))
        else none
    | .mapping pairs st =>
      match lookupPairIdx pairs seg with
      | none => none
      | some i =>
        match pairs[i]? with
        | none => none
        | some p =>
          match modifyAt f p.2 rest with
          | none => none
          | some (.error e) => some (.error e)
          | some (.ok (c, freed)) =>
            some (.ok (.mapping (pairs.set i (p.1, c)) st, freed))

/-- The sequence branch of `Editor::set_yaml_at`
(`src/editor.rs:343-391`): parse the last segment as an `i32`, resolve a
negative index against the length, bounds-check, capture the successor
before removing the old element, free the removed element, then insert the
new node by appending (no successor) or inserting before the captured
successor.  Removal/insertion by node pointer is modelled positionally
(a node occurs at most once in a sequence). -/
def seqSetBranch (items : List YNode) (key : String) (newNode : YNode) :
    Except ErrorS (List YNode × List YNode) :=
  match rustParseI32 key with
  | none => .error (.ffi "invalid sequence index")
  | some index =>
    let count : Int := items.length
    let resolved : Int := if index < 0 then count + index else index
    if resolved < 0 ∨ count ≤ resolved then
      .error (.ffi "sequence index out of bounds")
    else
      match seqGetByIndex items resolved with
      | none => .error (.ffi "sequence element not found")
      | some old =>
        let nxt := seqGetByIndex items (resolved + 1)
        let items2 := items.eraseIdx resolved.toNat
        match nxt with
        | none => .ok (items2 ++ [newNode], [old])
        | some _ => .ok (items2.insertIdx resolved.toNat newNode, [old])

/-- The mapping branch of `Editor::set_yaml_at` (`src/editor.rs:313-342`):
replace the value of an existing pair in place, or append a new pair with a
freshly created scalar key (created by `fy_node_create_scalar_copy`, whose
style is unset, i.e. `any`). -/
def mapSetBranch (pairs : List (YNode × YNode)) (key : String)
    (newNode : YNode) : Except ErrorS (List (YNode × YNode)) :=
  match lookupPairIdx pairs key with
  | some i =>
    match pairs[i]? with
    | some p => .ok (pairs.set i (p.1, newNode))
    | none => .ok pairs
  | none => .ok (pairs ++ [(.scalar key .any, newNode)])

/-- Embeds `Editor::set_yaml_at` (`src/editor.rs:291-402`) over the tree model.
`newNode` is the node built from the YAML snippet by `build_from_yaml`
(handle initially detached); the result pairs the operation's outcome
(new root and wrapper-freed nodes) with the final state of that handle —
`mark_inserted` runs only on the all-success path (line 400) and on the
`set_root` path.  Engine primitives that cannot fail on a well-formed tree
(append / insert of a detached node into a valid container) are modelled as
succeeding. -/
def set_yaml_at (root : Option YNode) (path : String) (newNode : YNode) :
    Except ErrorS (Option YNode × List YNode) × RawNodeHandle :=
  let h : RawNodeHandle := ⟨newNode, false⟩
  if path = "" ∨ path = "/" then
    (.ok (some newNode, []), markInserted h)
  else
    match root with
    | none => (.error (.ffi "document has no root"), h)
    | some r =>
      let pr := split_path path
      let res := modifyAt (fun parent =>
        match parent with
        | .mapping pairs st =>
          (mapSetBranch pairs pr.2 newNode).map (fun ps => (.mapping ps st, []))
        | .sequence items st =>
          (seqSetBranch items pr.2 newNode).map (fun q => (.sequence q.1 st, q.2))
        | .scalar _ _ => .error (.typeMismatch "mapping or sequence" "scalar"))
        r (pathSegs pr.1)
      match res with
      | none => (.error (.ffi "parent path not found"), h)
      | some (.error e) => (.error e, h)
      | some (.ok (r2, freed)) => (.ok (some r2, freed), markInserted h)

/-- The mapping branch of `Editor::delete_at` (`src/editor.rs:436-458`):
look up the pair by key; if absent, nothing to delete; otherwise remove the
pair and free the detached value node returned by
`fy_node_mapping_remove_by_key`. -/
def mapDelBranch (pairs : List (YNode × YNode)) (key : String) :
    List (YNode × YNode) × Option YNode :=
  match lookupPairIdx pairs key with
  | none => (pairs, none)
  | some i =>
    match pairs[i]? with
    | none => (pairs, none)
    | some p => (pairs.eraseIdx i, some p.2)

/-- The sequence branch of `Editor::delete_at` (`src/editor.rs:459-474`):
parse the segment as an `i32` (failure is an error, not `false`), fetch by
index (negative indices from the end; out of range gives `none` = nothing to
delete), remove and free the element. -/
def seqDelBranch (items : List YNode) (key : String) :
    Except ErrorS (List YNode × Option YNode) :=
  match rustParseI32 key with
  | none => .error (.ffi "invalid sequence index")
  | some index =>
    let j : Int := if index < 0 then (items.length : Int) + index else index
    if 0 ≤ j ∧ j < (items.length : Int) then
      match items[j.toNat]? with
      | some item => .ok (items.eraseIdx j.toNat, some item)
      | none => .ok (items, none)
    else .ok (items, none)

/-- Embeds `Editor::delete_at` (`src/editor.rs:420-481`) over the tree model: the
result carries the returned `bool`, the new root and the list of nodes the
wrapper freed.  An unresolvable parent (including a rootless document) gives
`Ok(false)`; the root path is an error; a scalar parent is a
`TypeMismatch`. -/
def delete_at (root : Option YNode) (path : String) :
    Except ErrorS (Bool × Option YNode × List YNode) :=
  if path = "" ∨ path = "/" then .error (.ffi "cannot delete root via delete_at")
  else
    match root with
    | none => .ok (false, root, [])
    | some r =>
      let pr := split_path path
      let res := modifyAt (fun parent =>
        match parent with
        | .mapping pairs st =>
          let q := mapDelBranch pairs pr.2
          .ok (.mapping q.1 st, q.2.toList)
        | .sequence items st =>
          (seqDelBranch items pr.2).map (fun q => (.sequence q.1 st, q.2.toList))
        | .scalar _ _ => .error (.typeMismatch "mapping or sequence" "scalar"))
        r (pathSegs pr.1)
      match res with
      | none => .ok (false, root, [])
      | some (.error e) => .error e
      | some (.ok (r2, freed)) =>
        match freed with
        | [] => .ok (false, some r2, [])
        | _ => .ok (true, some r2, freed)

/-- A collected native error (`fy_diag_error`): message plus 0-based line and
column, where `-1` means "not available". -/
structure FyDiagError where
  msg : String
  line : Int
  column : Int
deriving DecidableEq, Repr

/-- Embeds `parse_error_from_diag_error` (`src/diag.rs:143-169`): lossy message
copy, 0-based → 1-based location, negative → absent. -/
def parse_error_from_diag_error (e : FyDiagError) : ParseErrorS :=
  { message := e.msg
  , line := if 0 ≤ e.line then some (e.line + 1).toNat else none
  , column := if 0 ≤ e.column then some (e.column + 1).toNat else none }

/-- Embeds `Diag::first_error` (`src/diag.rs:78-86`) over the list of collected
native errors. -/
def firstError (collected : List FyDiagError) : Option ParseErrorS :=
  collected.head?.map parse_error_from_diag_error

/-- Embeds `Diag::first_error_or` (`src/diag.rs:91-95`). -/
def firstErrorOr (collected : List FyDiagError) (fallback : String) : ErrorS :=
  match firstError collected with
  | some pe => .parseError pe
  | none => .parse fallback

/-- Embeds `diag_error` (`src/diag.rs:134-137`): `none` models a `Diag` whose
creation failed (OOM). -/
def diagError (diag : Option (List FyDiagError)) (fallback : String) : ErrorS :=
  match diag with
  | some d => firstErrorOr d fallback
  | none => .parse fallback

/-- Embeds `Document::parse_str` (`src/document.rs:164-186`): empty input is
rejected up front; `engineDoc` is the outcome of the engine call
`fy_document_build_from_malloc_string` (`none` = parse failure, otherwise
the root, possibly absent); `collected` is whatever the native diagnostic
layer reported during the call.  As in the source, the failure arm builds a
static unlocated `Error::Parse` and consults no diagnostic context. -/
def parse_str (s : String) (engineDoc : Option (Option YNode))
    (_collected : List FyDiagError) : Except ErrorS (Option YNode) :=
  if s = "" then .error (.parse "empty input")
  else
    match engineDoc with
    | none => .error (.parse "fy_document_build_from_malloc_string failed")
    | some root => .ok root

/-- Modelled from the spec: the parse-failure error path as §7 of the spec
describes it — "Parse failures always prefer the located error kind when the
diagnostic context successfully captured a native error; they fall back to an
unlocated error only if diagnostic-context creation itself failed ... or no
native error happened to be collected."  `diag = none` models failed
diagnostic-context creation.  This is the comparison point for the code's
`parse_str` above. -/
def parse_str_specified (s : String) (engineDoc : Option (Option YNode))
    (diag : Option (List FyDiagError)) : Except ErrorS (Option YNode) :=
  if s = "" then .error (.parse "empty input")
  else
    match engineDoc with
    | none => .error (diagError diag "fy_document_build_from_malloc_string failed")
    | some root => .ok root

/-- The document of the spec's scenario (2):
`parse("items:\n - a\n - b\n - c")`. -/
def itemsDoc : YNode :=
  .mapping
    [(.scalar "items" .plain,
      .sequence [.scalar "a" .plain, .scalar "b" .plain, .scalar "c" .plain]
        .block)]
    .block

example :
    set_yaml_at (some itemsDoc) "/items/-1" (.scalar "last" .plain) =
      (.ok (some (.mapping
          [(.scalar "items" .plain,
            .sequence [.scalar "a" .plain, .scalar "b" .plain,
              .scalar "last" .plain] .block)] .block),
        [.scalar "c" .plain]),
        ⟨.scalar "last" .plain, true⟩) := by
  rfl

example :
    delete_at (some itemsDoc) "/items/1" =
      .ok (true,
        some (.mapping
          [(.scalar "items" .plain,
            .sequence [.scalar "a" .plain, .scalar "c" .plain] .block)] .block),
        [.scalar "b" .plain]) := by
  rfl

example : delete_at (some itemsDoc) "/missing" = .ok (false, some itemsDoc, []) := by
  rfl

example : delete_at (some itemsDoc) "/a/b" = .ok (false, some itemsDoc, []) := by
  rfl

example : delete_at (some itemsDoc) "" = .error (.ffi "cannot delete root via delete_at") := by
  rfl

/-! ## Helper lemmas -/

lemma i64TryFrom_range (w v : Int) (h : i64TryFrom w = some v) :
    -(2 ^ 63 : Int) ≤ v ∧ v < 2 ^ 63 := by
  unfold i64TryFrom at h
  split at h
  · next hc =>
    injection h with h2
    subst h2
    exact hc
  · cases h

lemma eraseIdx_append_eq_set {α : Type} (l : List α) (j : Nat) (a : α)
    (h : j + 1 = l.length) : l.eraseIdx j ++ [a] = l.set j a := by
  induction l generalizing j with
  | nil => simp at h
  | cons x xs ih =>
    cases j with
    | zero =>
      simp only [List.length_cons] at h
      have hx : xs = [] := List.length_eq_zero.mp (by omega)
      subst hx
      rfl
    | succ j =>
      simp only [List.length_cons] at h
      have h2 : j + 1 = xs.length := by omega
      show x :: (xs.eraseIdx j ++ [a]) = x :: xs.set j a
      rw [ih j h2]

lemma eraseIdx_insertIdx_eq_set {α : Type} (l : List α) (j : Nat) (a : α)
    (h : j + 1 < l.length) : (l.eraseIdx j).insertIdx j a = l.set j a := by
  induction l generalizing j with
  | nil => simp at h
  | cons x xs ih =>
    cases j with
    | zero => rfl
    | succ j =>
      simp only [List.length_cons] at h
      have h2 : j + 1 < xs.length := by omega
      show x :: (xs.eraseIdx j).insertIdx j a = x :: xs.set j a
      rw [ih j h2]

lemma seqGetByIndex_eq (items : List YNode) (j : Int) (h0 : 0 ≤ j) :
    seqGetByIndex items j
      = if j < (items.length : Int) then items[j.toNat]? else none := by
  simp only [seqGetByIndex]
  rw [if_neg (show ¬j < 0 by omega)]
  by_cases hl : j < (items.length : Int)
  · rw [if_pos ⟨h0, hl⟩, if_pos hl]
  · rw [if_neg (by tauto), if_neg hl]

/-! ## Claims -/

/-- C7: `parse_i64` accepts an optional leading `+`/`-` followed by a
decimal, `0x`/`0X`-hex, `0o`/`0O`-octal or `0b`/`0B`-binary magnitude,
computes in an intermediate range wide enough that the most negative signed
64-bit value parses successfully (also through the radix prefixes), and
returns `none` for any result outside the signed 64-bit range. -/
theorem claim_C7_parse_i64_range :
    (∀ s v, parse_i64 s = some v → -(2 ^ 63 : Int) ≤ v ∧ v < 2 ^ 63)
  ∧ parse_i64 "-9223372036854775808" = some (-(2 ^ 63))
  ∧ parse_i64 "-0x8000000000000000" = some (-(2 ^ 63))
  ∧ parse_i64 "-0o1000000000000000000000" = some (-(2 ^ 63))
  ∧ parse_i64 "-0b1000000000000000000000000000000000000000000000000000000000000000"
      = some (-(2 ^ 63))
  ∧ parse_i64 "9223372036854775807" = some (2 ^ 63 - 1)
  ∧ parse_i64 "9223372036854775808" = none
  ∧ parse_i64 "-9223372036854775809" = none
  ∧ parse_i64 "+42" = some 42
  ∧ parse_i64 "-10" = some (-10)
  ∧ parse_i64 "0xFF" = some 255
  ∧ parse_i64 "0X1f" = some 31
  ∧ parse_i64 "0o77" = some 63
  ∧ parse_i64 "0O17" = some 15
  ∧ parse_i64 "0b1010" = some 10
  ∧ parse_i64 "0B11" = some 3 := by
  refine ⟨?_, by decide, by decide, by decide, by decide, by decide, by decide,
    by decide, by decide, by decide, by decide, by decide, by decide, by decide,
    by decide, by decide⟩
  intro s v h
  simp only [parse_i64, parseI64Core] at h
  split at h
  · cases h
  · split at h
    · cases h
    · exact i64TryFrom_range _ _ h

/-- C7 witness: the range bound instantiated at input `"+42"`. -/
theorem claim_C7_witness :
    -(2 ^ 63 : Int) ≤ 42 ∧ (42 : Int) < 2 ^ 63 :=
  claim_C7_parse_i64_range.1 "+42" 42 (by decide)

/-- C9: `parse_bool` returns `true` exactly for the nine spellings
`true/True/TRUE/yes/Yes/YES/on/On/ON`, `false` exactly for
`false/False/FALSE/no/No/NO/off/Off/OFF`, and `none` for every other string,
including other case variants such as `"tRue"` and abbreviations such as
`"y"`. -/
theorem claim_C9_parse_bool (s : String) :
    (parse_bool s = some true ↔
      s = "true" ∨ s = "True" ∨ s = "TRUE" ∨ s = "yes" ∨ s = "Yes" ∨ s = "YES"
        ∨ s = "on" ∨ s = "On" ∨ s = "ON")
  ∧ (parse_bool s = some false ↔
      s = "false" ∨ s = "False" ∨ s = "FALSE" ∨ s = "no" ∨ s = "No" ∨ s = "NO"
        ∨ s = "off" ∨ s = "Off" ∨ s = "OFF")
  ∧ parse_bool "tRue" = none
  ∧ parse_bool "y" = none
  ∧ parse_bool "onn" = none := by
  refine ⟨?_, ?_, by decide, by decide, by decide⟩
  · unfold parse_bool
    split_ifs with h1 h2
    · exact ⟨fun _ => h1, fun _ => rfl⟩
    · exact ⟨fun hh => Bool.noConfusion (Option.some.inj hh), fun hh => absurd hh h1⟩
    · exact ⟨fun hh => by simp at hh, fun hh => absurd hh h1⟩
  · unfold parse_bool
    split_ifs with h1 h2
    · constructor
      · intro hh
        exact Bool.noConfusion (Option.some.inj hh)
      · intro hh
        rcases h1 with h | h | h | h | h | h | h | h | h <;> subst h <;>
          revert hh <;> decide
    · exact ⟨fun _ => h2, fun _ => rfl⟩
    · exact ⟨fun hh => by simp at hh, fun hh => absurd hh h2⟩

/-- C8: `parse_number` classifies a non-negative integer result as unsigned
and a negative one as signed, and yields a `float` only when the (trimmed)
text is one of the special spellings `.inf`/`+.inf`/`-.inf`/`.nan`
(case-insensitive) or contains a decimal point or an `e`/`E` exponent
marker — so `parse_number "42"` is the unsigned integer `42` and never the
float `42.0`, while the direct accessor `parse_f64 "42"` still returns
`42.0`. -/
theorem claim_C8_parse_number :
    (∀ s n, parse_number s = some (.int n) → n < 0)
  ∧ (∀ s n, parse_i64 s = some n → 0 ≤ n →
      parse_number s = some (.uint n.toNat))
  ∧ (∀ s f, parse_number s = some (.float f) →
      (eqIgnoreAsciiCaseL (trimL s.toList) ".inf".toList
        || eqIgnoreAsciiCaseL (trimL s.toList) "+.inf".toList
        || eqIgnoreAsciiCaseL (trimL s.toList) "-.inf".toList
        || eqIgnoreAsciiCaseL (trimL s.toList) ".nan".toList
        || (trimL s.toList).contains '.'
        || (trimL s.toList).contains 'e'
        || (trimL s.toList).contains 'E') = true)
  ∧ parse_number "42" = some (.uint 42)
  ∧ parse_number "-10" = some (.int (-10))
  ∧ parse_number "18446744073709551615" = some (.uint (2 ^ 64 - 1))
  ∧ parse_number "2.5" = some (.float (.finite (mkRat 5 2)))
  ∧ parse_number "1e3" = some (.float (.finite 1000))
  ∧ parse_f64 "42" = some (.finite 42) := by
  refine ⟨?_, ?_, ?_, by decide, by decide, by decide, by decide, by decide,
    by decide⟩
  · intro s n h
    simp only [parse_number] at h
    split at h
    · simp at h
    · split at h
      · next m hm =>
        split at h
        · simp at h
        · next hneg =>
          injection h with h2
          injection h2 with h3
          omega
      · split at h
        · simp at h
        · split at h
          · simp at h
          · split at h
            · simp at h
            · split at h
              · simp at h
              · split at h
                · split at h
                  · simp at h
                  · simp at h
                · simp at h
  · intro s n h hn
    unfold parse_i64 at h
    simp only [parse_number]
    split
    · next he => rw [he] at h; simp [parseI64Core] at h
    · rw [h]
      simp [hn]
  · intro s f h
    simp only [parse_number] at h
    split at h
    · simp at h
    · split at h
      · split at h <;> simp at h
      · split at h
        · simp at h
        · split at h
          · next hc =>
            simp only [Bool.or_eq_true] at hc ⊢
            tauto
          · split at h
            · next hc =>
              simp only [Bool.or_eq_true] at hc ⊢
              tauto
            · split at h
              · next hc =>
                simp only [Bool.or_eq_true] at hc ⊢
                tauto
              · split at h
                · next hc =>
                  split at h
                  · simp only [Bool.or_eq_true] at hc ⊢
                    tauto
                  · simp at h
                · simp at h

/-- C8 witness: the signed / unsigned classification instantiated at
`"-10"` and `"42"`. -/
theorem claim_C8_witness :
    (-10 : Int) < 0 ∧ parse_number "42" = some (.uint 42) :=
  ⟨claim_C8_parse_number.1 "-10" (-10) (by decide),
   claim_C8_parse_number.2.1 "42" 42 (by decide) (by decide)⟩

/-- C10: `parse_f64` (hence `ValueRef::as_f64` on a plain scalar) also
accepts the undotted spellings of the standard Rust float grammar — `inf`,
`-inf`, `infinity`, `NaN` — returning the corresponding special value, while
`parse_number` returns `none` and `needs_quoting` returns `false` for those
same strings: the plain scalar `inf` reads back as infinity through `as_f64`
but is not classified as a number by the emission ambiguity check. -/
theorem claim_C10_undotted_float_spellings :
    parse_f64 "inf" = some .inf
  ∧ parse_f64 "+inf" = some .inf
  ∧ parse_f64 "-inf" = some .neginf
  ∧ parse_f64 "infinity" = some .inf
  ∧ parse_f64 "Infinity" = some .inf
  ∧ parse_f64 "-Infinity" = some .neginf
  ∧ parse_f64 "NaN" = some .nan
  ∧ parse_f64 "nan" = some .nan
  ∧ parse_number "inf" = none
  ∧ parse_number "-inf" = none
  ∧ parse_number "infinity" = none
  ∧ parse_number "NaN" = none
  ∧ needs_quoting "inf" = false
  ∧ needs_quoting "-inf" = false
  ∧ needs_quoting "infinity" = false
  ∧ needs_quoting "NaN" = false
  ∧ vrAsF64 (.scalar "inf" .plain) = some .inf
  ∧ vrAsF64 (.scalar "NaN" .plain) = some .nan := by
  decide

/-- C4 counterexample: the claim says typed accessors return an interpreted
value only when the scalar's style is `Plain`, but the code's gate is
`is_non_plain` (single/double-quoted, literal, folded), so a scalar carrying
style `Any` — reachable through `Editor::build_scalar` /
`Editor::set_style(_, NodeStyle::Any)` — is still interpreted: `as_bool` on
an `Any`-styled scalar `true` yields `Some(true)` although `Any ≠ Plain`. -/
theorem claim_C4_counterexample :
    vrAsBool (.scalar "true" .any) = some true
  ∧ vrAsI64 (.scalar "42" .any) = some 42
  ∧ decide (NodeStyle.any = NodeStyle.plain) = false
  ∧ is_non_plain (.scalar "true" .any) = false := by
  decide

/-- C4 (amended): the typed accessors `is_null`/`as_bool`/`as_i64`/`as_u64`/
`as_f64` return an interpreted value only when the node is a scalar whose
style is not non-plain (not single-quoted, double-quoted, literal or
folded); for every scalar with one of those four styles they return the
not-applicable result (`none`/`false`) regardless of content, so a
single-quoted `true` is never a bool and a double-quoted `42` is never a
number. -/
theorem claim_C4_nonplain_never_interpreted :
    (∀ content st,
      (st = NodeStyle.singleQuoted ∨ st = NodeStyle.doubleQuoted
        ∨ st = NodeStyle.literal ∨ st = NodeStyle.folded) →
        vrIsNull (.scalar content st) = false
      ∧ vrAsBool (.scalar content st) = none
      ∧ vrAsI64 (.scalar content st) = none
      ∧ vrAsU64 (.scalar content st) = none
      ∧ vrAsF64 (.scalar content st) = none)
  ∧ (∀ n : YNode,
      ((vrAsBool n).isSome ∨ (vrAsI64 n).isSome ∨ (vrAsU64 n).isSome
        ∨ (vrAsF64 n).isSome ∨ vrIsNull n = true) →
      is_scalar n = true ∧ is_non_plain n = false)
  ∧ vrAsBool (.scalar "true" .singleQuoted) = none
  ∧ vrAsI64 (.scalar "42" .doubleQuoted) = none
  ∧ vrAsF64 (.scalar "42" .doubleQuoted) = none
  ∧ vrAsBool (.scalar "true" .literal) = none
  ∧ vrAsI64 (.scalar "42" .folded) = none := by
  refine ⟨?_, ?_, by decide, by decide, by decide, by decide, by decide⟩
  · intro content st hst
    rcases hst with h | h | h | h <;> subst h <;>
      exact ⟨rfl, rfl, rfl, rfl, rfl⟩
  · intro n hn
    cases n with
    | scalar c st =>
      cases st <;>
        simp_all [vrAsBool, vrAsI64, vrAsU64, vrAsF64, vrIsNull, is_scalar,
          is_non_plain, kindOf, styleOf, scalarStrOk]
    | sequence items st =>
      simp_all [vrAsBool, vrAsI64, vrAsU64, vrAsF64, vrIsNull, is_scalar,
        kindOf, scalarStrOk]
    | mapping pairs st =>
      simp_all [vrAsBool, vrAsI64, vrAsU64, vrAsF64, vrIsNull, is_scalar,
        kindOf, scalarStrOk]

/-- C4 witness: the amended claim instantiated at a single-quoted `true` and
at a plain scalar that does get interpreted. -/
theorem claim_C4_witness :
    vrAsBool (YNode.scalar "true" .singleQuoted) = none
  ∧ (is_scalar (YNode.scalar "true" .plain) = true
      ∧ is_non_plain (YNode.scalar "true" .plain) = false) :=
  ⟨(claim_C4_nonplain_never_interpreted.1 "true" .singleQuoted (Or.inl rfl)).2.1,
   claim_C4_nonplain_never_interpreted.2.1 (YNode.scalar "true" .plain)
     (Or.inl (by decide))⟩

/-- C2: a `RawNodeHandle`'s detached→inserted transition is monotone (hence
happens at most once) and, starting from a detached handle, happens exactly
when the insertion operation's engine call (`set_root`, `seq_append`,
`map_insert`, `seq_append_at`, or the insertion inside `set_yaml_at`)
reports success; on engine failure the operation errors and the handle stays
as it was (detached); dropping a still-detached handle frees its node
exactly once and dropping an inserted handle frees nothing. -/
theorem claim_C2_handle_insertion_protocol :
    (∀ (ret : Int) (h : RawNodeHandle),
        (setRootE ret h).2.inserted = (decide (ret = 0) || h.inserted)
      ∧ ((setRootE ret h).1 = .ok () ↔ ret = 0)
      ∧ (setRootE ret h).2.node = h.node
      ∧ (seqAppendE ret h).2.inserted = (decide (ret = 0) || h.inserted)
      ∧ ((seqAppendE ret h).1 = .ok () ↔ ret = 0)
      ∧ (seqAppendAtE .sequence ret h).2.inserted = (decide (ret = 0) || h.inserted)
      ∧ ((seqAppendAtE .sequence ret h).1 = .ok () ↔ ret = 0))
  ∧ (∀ (ret : Int) (k v : RawNodeHandle),
        (mapInsertE ret k v).2.1.inserted = (decide (ret = 0) || k.inserted)
      ∧ (mapInsertE ret k v).2.2.inserted = (decide (ret = 0) || v.inserted)
      ∧ ((mapInsertE ret k v).1 = .ok () ↔ ret = 0))
  ∧ (∀ (kd : NodeType) (ret : Int) (h : RawNodeHandle), kd ≠ .sequence →
        (seqAppendAtE kd ret h).2 = h
      ∧ (seqAppendAtE kd ret h).1 = .error (.typeMismatch "sequence" "non-sequence"))
  ∧ (∀ root path n,
        ((set_yaml_at root path n).2.inserted = true
          ↔ (set_yaml_at root path n).1.isOk = true)
      ∧ (set_yaml_at root path n).2.node = n)
  ∧ (∀ n : YNode, dropFreeCount ⟨n, false⟩ = 1 ∧ dropFreeCount ⟨n, true⟩ = 0)
  ∧ (∀ h : RawNodeHandle, (markInserted h).inserted = true) := by
  refine ⟨?_, ?_, ?_, ?_, ?_, ?_⟩
  · intro ret h
    by_cases hr : ret = 0 <;>
      simp [setRootE, seqAppendE, seqAppendAtE, markInserted, hr]
  · intro ret k v
    by_cases hr : ret = 0 <;>
      simp [mapInsertE, markInserted, hr]
  · intro kd ret h hkd
    simp [seqAppendAtE, hkd]
  · intro root path n
    unfold set_yaml_at
    split
    · simp [markInserted, Except.isOk, Except.toBool]
    · cases root with
      | none => simp [Except.isOk, Except.toBool]
      | some r =>
        simp only
        split <;> simp [markInserted, Except.isOk, Except.toBool]
  · intro n
    exact ⟨rfl, rfl⟩
  · intro h
    rfl

/-- C2 witness: the type-mismatch arm of `seq_append_at` instantiated at a
scalar target. -/
theorem claim_C2_witness :
    (seqAppendAtE .scalar 0 ⟨YNode.scalar "x" .plain, false⟩).1
      = .error (.typeMismatch "sequence" "non-sequence") :=
  (claim_C2_handle_insertion_protocol.2.2.1 .scalar 0
    ⟨YNode.scalar "x" .plain, false⟩ (by decide)).2

/-- C5: for a sequence of length `N` and a `set_yaml_at` path whose last
segment parses as a signed integer index `i` with resolved index
`j = i` (if `i ≥ 0`) or `N + i` (if `i < 0`) satisfying `0 ≤ j < N`, the
sequence branch of `set_yaml_at` replaces exactly the element at position
`j` with the parsed snippet: afterwards the sequence still has length `N`,
element `j` equals the snippet's node, every other element is unchanged, and
exactly the replaced element is freed; a resolved index outside `[0, N)` is
an error (issued before any mutation, so the sequence is unchanged).  The
spec's concrete scenario — `set_yaml_at` at path `items`, index `-1`,
snippet `last` — on
`{items: [a, b, c]}` is evaluated in full. -/
theorem claim_C5_set_yaml_at_sequence_frame :
    (∀ (items : List YNode) (key : String) (newNode : YNode) (i j : Int),
      rustParseI32 key = some i →
      j = (if i < 0 then (items.length : Int) + i else i) →
      ((0 ≤ j ∧ j < (items.length : Int)) →
        ∃ old, items[j.toNat]? = some old
          ∧ seqSetBranch items key newNode
              = .ok (items.set j.toNat newNode, [old])
          ∧ (items.set j.toNat newNode).length = items.length
          ∧ (items.set j.toNat newNode)[j.toNat]? = some newNode
          ∧ ∀ k : Nat, k ≠ j.toNat →
              (items.set j.toNat newNode)[k]? = items[k]?)
      ∧ (¬(0 ≤ j ∧ j < (items.length : Int)) →
          seqSetBranch items key newNode
            = .error (.ffi "sequence index out of bounds")))
  ∧ set_yaml_at (some itemsDoc) "/items/-1" (.scalar "last" .plain)
      = (.ok (some (.mapping
            [(.scalar "items" .plain,
              .sequence [.scalar "a" .plain, .scalar "b" .plain,
                .scalar "last" .plain] .block)] .block),
          [.scalar "c" .plain]),
        ⟨.scalar "last" .plain, true⟩) := by
  refine ⟨?_, by rfl⟩
  intro items key newNode i j hkey hj
  constructor
  · intro hb
    obtain ⟨h0, hlen⟩ := hb
    have hjn : j.toNat < items.length := by omega
    rcases hg : items[j.toNat]? with _ | old
    · rw [List.getElem?_eq_none_iff] at hg
      omega
    · refine ⟨old, rfl, ?_, by simp, List.getElem?_set_self hjn, ?_⟩
      · simp only [seqSetBranch, hkey]
        rw [← hj]
        rw [if_neg (by omega)]
        rw [seqGetByIndex_eq items j h0, if_pos hlen, hg]
        rw [seqGetByIndex_eq items (j + 1) (by omega)]
        by_cases hlast : (j + 1) < (items.length : Int)
        · rw [if_pos hlast]
          have hjn2 : (j + 1).toNat < items.length := by omega
          rcases hg2 : items[(j + 1).toNat]? with _ | nxt
          · rw [List.getElem?_eq_none_iff] at hg2
            omega
          · rw [eraseIdx_insertIdx_eq_set items j.toNat newNode (by omega)]
        · rw [if_neg hlast]
          rw [eraseIdx_append_eq_set items j.toNat newNode (by omega)]
      · intro k hk
        exact List.getElem?_set_ne (Ne.symm hk)
  · intro hnb
    simp only [seqSetBranch, hkey]
    rw [← hj]
    rw [if_pos (by omega)]

/-- C5 witness: the frame property instantiated at `[a, b, c]`, index `-1`
and snippet node `last`. -/
theorem claim_C5_witness :
    seqSetBranch
        [YNode.scalar "a" .plain, YNode.scalar "b" .plain, YNode.scalar "c" .plain]
        "-1" (YNode.scalar "last" .plain)
      = .ok ([YNode.scalar "a" .plain, YNode.scalar "b" .plain,
          YNode.scalar "last" .plain],
        [YNode.scalar "c" .plain]) := by
  obtain ⟨old, hget, hres, -⟩ :=
    (claim_C5_set_yaml_at_sequence_frame.1
      [YNode.scalar "a" .plain, YNode.scalar "b" .plain, YNode.scalar "c" .plain]
      "-1" (YNode.scalar "last" .plain) (-1) 2 (by decide) (by decide)).1
      (by constructor <;> decide)
  have hc : old = YNode.scalar "c" .plain := by
    have hv : ([YNode.scalar "a" .plain, YNode.scalar "b" .plain,
        YNode.scalar "c" .plain] : List YNode)[(2 : Int).toNat]?
        = some (YNode.scalar "c" .plain) := rfl
    rw [hv] at hget
    exact (Option.some.inj hget).symm
  subst hc
  exact hres

/-- C6 counterexample: the claim says `delete_at` returns `false` (not an
error) whenever the parent path or the target segment does not exist, but a
non-integer segment under an existing sequence parent — segment `foo` does
not exist in the one-element sequence — produces an `invalid sequence index`
error instead of `Ok(false)` (`src/editor.rs:461-463`). -/
theorem claim_C6_counterexample :
    delete_at (some (.sequence [.scalar "a" .plain] .block)) "/foo"
      = .error (.ffi "invalid sequence index") := by
  rfl

/-- C6 (amended): `delete_at` returns `false` (not an error) when the parent
path does not resolve, when a mapping parent lacks the key, or when a
sequence parent's integer index is out of range; a last segment that does
not parse as an integer under a sequence parent is an `invalid sequence
index` error; the root path (`""` or `"/"`) is an error, and a parent that
is neither mapping nor sequence is a `TypeMismatch` error; on successful
deletion the removed node is freed and `delete_at` returns `true`. -/
theorem claim_C6_delete_at :
    (∀ root, delete_at root "" = .error (.ffi "cannot delete root via delete_at")
      ∧ delete_at root "/" = .error (.ffi "cannot delete root via delete_at"))
  ∧ (∀ path, path ≠ "" → path ≠ "/" → delete_at none path = .ok (false, none, []))
  ∧ (∀ pairs key, lookupPairIdx pairs key = none →
      mapDelBranch pairs key = (pairs, none))
  ∧ (∀ pairs key i (p : YNode × YNode), lookupPairIdx pairs key = some i →
      pairs[i]? = some p →
      mapDelBranch pairs key = (pairs.eraseIdx i, some p.2))
  ∧ (∀ items key, rustParseI32 key = none →
      seqDelBranch items key = .error (.ffi "invalid sequence index"))
  ∧ (∀ items key i j, rustParseI32 key = some i →
      j = (if i < 0 then (items.length : Int) + i else i) →
      (¬(0 ≤ j ∧ j < (items.length : Int)) →
        seqDelBranch items key = .ok (items, none))
      ∧ ((0 ≤ j ∧ j < (items.length : Int)) →
        ∃ old, items[j.toNat]? = some old
          ∧ seqDelBranch items key = .ok (items.eraseIdx j.toNat, some old)))
  ∧ delete_at (some (.scalar "x" .plain)) "/k"
      = .error (.typeMismatch "mapping or sequence" "scalar")
  ∧ delete_at (some itemsDoc) "/items/1"
      = .ok (true,
          some (.mapping [(.scalar "items" .plain,
            .sequence [.scalar "a" .plain, .scalar "c" .plain] .block)] .block),
          [.scalar "b" .plain])
  ∧ delete_at (some itemsDoc) "/missing" = .ok (false, some itemsDoc, [])
  ∧ delete_at (some itemsDoc) "/a/b" = .ok (false, some itemsDoc, []) := by
  refine ⟨?_, ?_, ?_, ?_, ?_, ?_, by rfl, by rfl, by rfl, by rfl⟩
  · intro root
    exact ⟨rfl, rfl⟩
  · intro path h1 h2
    unfold delete_at
    rw [if_neg (by exact fun hc => hc.elim h1 h2)]
  · intro pairs key h
    unfold mapDelBranch
    rw [h]
  · intro pairs key i p h hp
    simp only [mapDelBranch, h, hp]
  · intro items key h
    unfold seqDelBranch
    rw [h]
  · intro items key i j hkey hj
    constructor
    · intro hnb
      simp only [seqDelBranch, hkey]
      rw [← hj]
      rw [if_neg hnb]
    · intro hb
      obtain ⟨h0, hlen⟩ := hb
      have hjn : j.toNat < items.length := by omega
      rcases hg : items[j.toNat]? with _ | old
      · rw [List.getElem?_eq_none_iff] at hg
        omega
      · refine ⟨old, rfl, ?_⟩
        simp only [seqDelBranch, hkey]
        rw [← hj]
        rw [if_pos ⟨h0, hlen⟩, hg]

/-- C6 witness: the amended claim instantiated at a missing mapping key, an
out-of-range sequence index, and a rootless document. -/
theorem claim_C6_witness :
    mapDelBranch [(YNode.scalar "k" .plain, YNode.scalar "v" .plain)] "missing"
        = ([(YNode.scalar "k" .plain, YNode.scalar "v" .plain)], none)
  ∧ seqDelBranch [YNode.scalar "a" .plain] "5" = .ok ([YNode.scalar "a" .plain], none)
  ∧ delete_at none "/k" = .ok (false, none, []) :=
  ⟨claim_C6_delete_at.2.2.1 [(YNode.scalar "k" .plain, YNode.scalar "v" .plain)]
      "missing" rfl,
   (claim_C6_delete_at.2.2.2.2.2.1 [YNode.scalar "a" .plain] "5" 5 5
      (by decide) (by decide)).1 (by decide),
   claim_C6_delete_at.2.1 "/k" (by decide) (by decide)⟩

/-- Classifier for C3: whether a parse result is the located
`Error::ParseError` kind. -/
def isLocatedParseFailure (r : Except ErrorS (Option YNode)) : Bool :=
  match r with
  | .error (.parseError _) => true
  | _ => false

/-- The native error libfyaml collects for `parse("[unclosed")` (0-based
line 1, column 0; cf. the `2:1` display in `src/error.rs:23`). -/
def unclosedNative : FyDiagError :=
  { msg := "flow sequence without a closing bracket", line := 1, column := 0 }

/-- C3: the claim (and the crate's own tests `test_parse_error_has_location`
and `test_first_error_or_returns_collected` in `src/diag.rs`) require
`Document::parse_str("[unclosed")` to fail with the located `ParseError`
kind; the code in `src/document.rs:164-186` never installs a diagnostic
context and always returns the unlocated `Error::Parse` on engine failure,
even though `Diag::first_error_or` would produce the located error (with
1-based line and column ≥ 1) from the collected native error. -/
theorem claim_C3_parse_str_unlocated :
    parse_str "[unclosed" none [unclosedNative]
        = .error (.parse "fy_document_build_from_malloc_string failed")
  ∧ isLocatedParseFailure (parse_str "[unclosed" none [unclosedNative]) = false
  ∧ parse_str_specified "[unclosed" none (some [unclosedNative])
        = .error (.parseError
            { message := "flow sequence without a closing bracket"
            , line := some 2, column := some 1 })
  ∧ isLocatedParseFailure
        (parse_str_specified "[unclosed" none (some [unclosedNative])) = true
  ∧ firstErrorOr [unclosedNative] "fy_document_build_from_malloc_string failed"
        = .parseError
            { message := "flow sequence without a closing bracket"
            , line := some 2, column := some 1 }
  ∧ parse_error_from_diag_error unclosedNative
        = { message := "flow sequence without a closing bracket"
          , line := some 2, column := some 1 }
  ∧ parse_error_from_diag_error { msg := "m", line := -1, column := -1 }
        = { message := "m", line := none, column := none }
  ∧ parse_str_specified "[unclosed" none none
        = .error (.parse "fy_document_build_from_malloc_string failed") :=
  ⟨rfl, rfl, rfl, rfl, rfl, rfl, rfl, rfl⟩

end Fyaml
